import Mathlib

/-!
Shallow embedding of the aura negotiation core (Python) in Lean 4.

Components embedded, each from its source file:
* `HiveMembrane.inspect_outbound`  — src/core-service/src/hive/membrane.py
* `OutputGuard.validate_decision`  — src/core-service/src/guard/membrane.py
* `MarketService.check_status` / `create_offer` — src/core-service/src/services/market.py
* `HiveConnector.act` / `_handle_crypto_lock` — src/core-service/src/hive/connector.py
* `PriceConverter.convert_usd_to_crypto` — src/core-service/src/crypto/pricing.py
* `AuraTransformer.think` (error path) — src/core-service/src/hive/transformer.py
* `RuleBasedStrategy.evaluate` — src/core-service/src/llm_strategy.py
* `verify_signature` — src/api-gateway/src/security.py

Python floats are idealised as rationals (`ℚ`), Unix datetimes as integers,
and external effects (database lookup, on-chain verification, hashing,
Ed25519, randomness) are passed in as explicit arguments.

Rational arithmetic inside the models is written with the kernel-reducible
wrappers `qadd`/`qsub`/`qmul`/`qdiv` (the library operations on `ℚ` are
sealed); the bridge lemmas `qadd_eq` … identify them with the ordinary
field operations.
-/

namespace Aura

/-! ### Kernel-reducible rational arithmetic -/

/-- Reducible multiplication on `ℚ`. -/
def qmul (a b : ℚ) : ℚ := mkRat (a.num * b.num) (a.den * b.den)

/-- Reducible addition on `ℚ`. -/
def qadd (a b : ℚ) : ℚ := mkRat (a.num * b.den + b.num * a.den) (a.den * b.den)

/-- Reducible subtraction on `ℚ`. -/
def qsub (a b : ℚ) : ℚ := mkRat (a.num * b.den - b.num * a.den) (a.den * b.den)

/-- Reducible division on `ℚ` (0 when the divisor is 0, as in the library). -/
def qdiv (a b : ℚ) : ℚ := Rat.divInt (a.num * b.den) (a.den * b.num)

/-- Reducible embedding of `ℤ` into `ℚ`. -/
def intToRat (i : ℤ) : ℚ := mkRat i 1

/-! ### Python `round(x, 2)`, `str.lower`, substring test -/

/-- Floor of a rational, computed with integer floor-division. -/
def ratFloor (q : ℚ) : ℤ := Int.fdiv q.num q.den

/-- Python banker's rounding (`round`) to an integer: round half to even. -/
def roundHalfEven (q : ℚ) : ℤ :=
  let f := ratFloor q
  let frac := qsub q (intToRat f)
  if frac < mkRat 1 2 then f
  else if mkRat 1 2 < frac then f + 1
  else if f % 2 = 0 then f else f + 1

/-- Python `round(x, 2)`: round to two decimal places, half to even. -/
def round2 (q : ℚ) : ℚ := qdiv (intToRat (roundHalfEven (qmul q 100))) 100

/-- ASCII lowercasing of one character, as Python `str.lower` acts on ASCII. -/
def lowerChar (c : Char) : Char :=
  if 65 ≤ c.toNat ∧ c.toNat ≤ 90 then Char.ofNat (c.toNat + 32) else c

/-- Python `s.lower()` (ASCII fragment). -/
def pyLower (s : String) : String := ⟨s.data.map lowerChar⟩

/-- Python `pat in hay` for strings: contiguous-substring test. -/
def strContains (hay pat : String) : Bool :=
  hay.data.tails.any (fun t => pat.data.isPrefixOf t)

/-- Decimal digits of a natural number, most significant first
(fuel-structured so that it reduces in the kernel). -/
def natReprAux : ℕ → ℕ → List Char
  | 0, _ => []
  | fuel + 1, n =>
    if n < 10 then [Char.ofNat (48 + n)]
    else natReprAux fuel (n / 10) ++ [Char.ofNat (48 + n % 10)]

/-- Decimal digits of a natural number, most significant first. -/
def natRepr (n : Nat) : List Char := natReprAux (n + 1) n

/-- Decimal rendering of an integer. -/
def intRepr (i : ℤ) : List Char :=
  if i < 0 then Char.ofNat 45 :: natRepr i.natAbs else natRepr i.toNat

/-- Python `f"{x:.2f}"` on a value already rounded to two decimals. -/
def money2 (q : ℚ) : String :=
  let cents : ℤ := roundHalfEven (qmul q 100)
  let whole : ℤ := cents / 100
  let rem : ℕ := (cents % 100).natAbs
  ⟨intRepr whole ++ [Char.ofNat 46] ++
    (if rem < 10 then [Char.ofNat 48] else []) ++ natRepr rem⟩

/-! ### Data model (src/hive/types.py) -/

/-- A value stored in an `IntentAction.metadata` dict. -/
inductive MetaVal where
  | str (s : String)
  | num (q : ℚ)
  deriving DecidableEq, Repr

/-- Python dict used for `metadata`, as an association list. -/
abbrev Metadata := List (String × MetaVal)

/-- `NegotiationOffer` dataclass. -/
structure NegotiationOffer where
  bid_amount : ℚ
  reputation : ℚ
  agent_did : String
  deriving DecidableEq, Repr

/-- The fields of `context.item_data` that the pipeline reads
(`dict.get` is modelled with `Option.getD`). -/
structure ItemData where
  name : Option String := none
  base_price : Option ℚ := none
  floor_price : Option ℚ := none
  internal_cost : Option ℚ := none
  deriving DecidableEq, Repr

/-- `HiveContext` dataclass (src/hive/types.py). -/
structure HiveContext where
  item_id : String
  offer : NegotiationOffer
  item_data : ItemData := {}
  request_id : String := ""
  deriving DecidableEq, Repr

/-- `IntentAction` dataclass; `failure` tags the `FailureIntent` subclass. -/
structure IntentAction where
  action : String
  price : ℚ
  message : String
  thought : String := ""
  metadata : Metadata := []
  failure : Bool := false
  error : String := ""
  deriving DecidableEq, Repr

/-- The `FailureIntent` dataclass with its field defaults
(action "error", price 0, fixed message). -/
def FailureIntent (error : String) (metadata : Metadata) : IntentAction :=
  { action := "error", price := 0,
    message := "Internal processing error. Defaulting to safe state.",
    thought := "", metadata := metadata, failure := true, error := error }

/-! ### HiveMembrane (src/hive/membrane.py) -/

namespace HiveMembrane

def DEFAULT_MIN_MARGIN : ℚ := mkRat 1 10

/-- The fixed DLP replacement phrase used by the membrane. -/
def dlpMessage : String :=
  "I\x27ve reviewed the offer, and I\x27ve provided my best possible response. I cannot disclose internal pricing details."

/-- The DLP annotation appended to `thought`. -/
def dlpTag : String := " [MEMBRANE: DLP block for \x27floor_price\x27 leak]"

/-- Message template of `_override_with_safe_offer` (price already rounded). -/
def safeOfferMessage (roundedPrice : ℚ) : String :=
  "I\x27ve reached my final limit for this item. My best offer is $" ++
    money2 roundedPrice ++ "."

/-- `HiveMembrane._override_with_safe_offer`. -/
def overrideWithSafeOffer (original : IntentAction) (safePrice : ℚ)
    (reason : String) : IntentAction :=
  let roundedPrice := round2 safePrice
  let baseThought := "Membrane Override: " ++ reason ++ ". LLM suggested " ++
    original.action ++ " at " ++ ⟨intRepr original.price.num⟩ ++ "/" ++
    ⟨natRepr original.price.den⟩ ++ "."
  let newThought :=
    if original.thought ≠ "" then original.thought ++ " | " ++ baseThought
    else baseThought
  { action := "counter",
    price := roundedPrice,
    message := safeOfferMessage roundedPrice,
    thought := newThought,
    metadata := [("original_decision", MetaVal.str original.action),
                 ("original_price", MetaVal.num original.price),
                 ("override_reason", MetaVal.str reason)] }

/-- `HiveMembrane.inspect_outbound`; `minMarginCfg` is
`settings.logic.min_margin`. -/
def inspect_outbound (minMarginCfg : ℚ) (decision : IntentAction)
    (context : HiveContext) : IntentAction :=
  let floor_price := context.item_data.floor_price.getD 0
  -- Rule 0: FailureIntent handling (self-healing)
  if decision.failure || decision.action == "error" then
    overrideWithSafeOffer decision (qmul floor_price (mkRat 105 100))
      "FAILURE_RECOVERY"
  else
    -- Rule 1: data-leak prevention
    let decision :=
      if strContains (pyLower decision.message) "floor_price" then
        { decision with message := dlpMessage,
                        thought := decision.thought ++ dlpTag }
      else decision
    -- non-price actions pass through
    if ¬ (decision.action == "accept" || decision.action == "counter") then
      decision
    -- Rule 2: floor price check
    else if decision.price < floor_price then
      overrideWithSafeOffer decision (qmul floor_price (mkRat 105 100))
        "FLOOR_PRICE_VIOLATION"
    else
      -- Rule 3: minimum margin check
      let min_margin :=
        if 0 ≤ minMarginCfg ∧ minMarginCfg < 1 then minMarginCfg
        else DEFAULT_MIN_MARGIN
      let required_min_price := qdiv floor_price (qsub 1 min_margin)
      if decision.price < required_min_price then
        overrideWithSafeOffer decision required_min_price
          "MIN_MARGIN_VIOLATION"
      else decision

end HiveMembrane

/-! ### OutputGuard (src/guard/membrane.py) -/

namespace OutputGuard

/-- `settings.safety` (src/config/policy.py defaults). -/
structure SafetySettings where
  min_profit_margin : ℚ := mkRat 1 10
  max_discount_percent : ℚ := mkRat 3 10
  allowed_addons : List String := ["Breakfast", "Late checkout", "Room upgrade"]
  deriving DecidableEq, Repr

/-- The `decision` dict handed to the guard. -/
structure GuardDecision where
  action : String
  price : ℚ := 0
  message : Option String := none
  deriving DecidableEq, Repr

/-- The `context` dict handed to the guard (`dict.get` defaults applied). -/
structure GuardContext where
  floor_price : ℚ := 0
  internal_cost : ℚ := 0
  base_price : ℚ := 0
  value_add_inventory : List String := []
  deriving DecidableEq, Repr

/-- `OutputGuard.validate_decision`: `Except.error` models a raised
`SafetyViolation`, `Except.ok` the `return True`. -/
def validate_decision (settings : SafetySettings) (decision : GuardDecision)
    (context : GuardContext) : Except String Unit :=
  let priceAction := decision.action == "accept" || decision.action == "counter"
  -- 2. invalid price check
  if decision.price ≤ 0 ∧ priceAction then
    Except.error "Invalid offered price"
  -- 3. margin check, relative to internal cost
  else if context.internal_cost > 0 ∧
      qdiv (qsub decision.price context.internal_cost) context.internal_cost <
        settings.min_profit_margin then
    Except.error "Economic suicide attempt"
  -- 4. floor price violation (accept only)
  else if decision.action == "accept" ∧ decision.price < context.floor_price then
    Except.error "Floor price breach"
  -- 5. max discount check
  else if context.base_price > 0 ∧ priceAction ∧
      settings.max_discount_percent <
        qdiv (qsub context.base_price decision.price) context.base_price then
    Except.error "Discount limit exceeded"
  -- 6. allowed addons check (heuristic substring scan)
  else
    match decision.message with
    | none => Except.ok ()
    | some msg =>
      if priceAction then
        let inventory_addons := context.value_add_inventory.map pyLower
        let configured_addons := settings.allowed_addons.map pyLower
        let potential_addons := inventory_addons ++ configured_addons
        match potential_addons.find? (fun addon =>
            addon ≠ "" ∧ strContains (pyLower msg) addon ∧
              addon ∉ configured_addons) with
        | some addon => Except.error ("Unauthorized addon mentioned: " ++ addon)
        | none => Except.ok ()
      else Except.ok ()

end OutputGuard

/-! ### Deal data model (src/db.py, proto messages) -/

/-- `DealStatus` enum (src/db.py). -/
inductive DealStatus where
  | PENDING
  | PAID
  | EXPIRED
  deriving DecidableEq, Repr

/-- `DealStatus.value` (`.value` of the Python enum). -/
def DealStatus.value : DealStatus → String
  | .PENDING => "PENDING"
  | .PAID => "PAID"
  | .EXPIRED => "EXPIRED"

/-- `LockedDeal` row (src/db.py); datetimes are Unix seconds. -/
structure LockedDeal where
  id : String
  item_id : String
  item_name : String
  final_price : ℚ
  currency : String
  payment_memo : String
  secret_content : String
  status : DealStatus
  buyer_did : Option String := none
  transaction_hash : Option String := none
  block_number : Option String := none
  from_address : Option String := none
  created_at : ℤ
  expires_at : ℤ
  paid_at : Option ℤ := none
  updated_at : ℤ
  deriving DecidableEq, Repr

/-- `PaymentProof` returned by `CryptoProvider.verify_payment`. -/
structure PaymentProof where
  transaction_hash : String
  block_number : String
  from_address : String
  confirmed_at : ℤ
  deriving DecidableEq, Repr

/-- `CryptoPaymentInstructions` proto message. -/
structure CryptoPaymentInstructions where
  deal_id : String
  wallet_address : String
  amount : ℚ
  currency : String
  memo : String
  network : String
  expires_at : ℤ
  deriving DecidableEq, Repr

/-- `DealSecret` proto message. -/
structure DealSecret where
  reservation_code : String
  item_name : String
  final_price : ℚ
  paid_at : ℤ
  deriving DecidableEq, Repr

/-- `PaymentProof` proto message as placed in the response. -/
structure ProofMsg where
  transaction_hash : String
  block_number : String
  from_address : String
  confirmed_at : ℤ
  deriving DecidableEq, Repr

/-- `CheckDealStatusResponse` proto message (optional fields are absent
unless set). -/
structure CheckDealStatusResponse where
  status : String
  secret : Option DealSecret := none
  proof : Option ProofMsg := none
  payment_instructions : Option CryptoPaymentInstructions := none
  deriving DecidableEq, Repr

/-! ### `secrets.token_urlsafe(6)[:8]` (memo generation) -/

/-- The URL-safe base64 alphabet. -/
def b64Char (n : ℕ) : Char :=
  "ABCDEFGHIJKLMNOPQRSTUVWXYZabcdefghijklmnopqrstuvwxyz0123456789-_".data.getD
    n (Char.ofNat 65)

/-- URL-safe base64 of a byte list, without padding
(as `base64.urlsafe_b64encode(..).rstrip(b"=")`). -/
def base64urlEncode : List ℕ → List Char
  | [] => []
  | [b1] => [b64Char (b1 / 4), b64Char (b1 % 4 * 16)]
  | [b1, b2] =>
      [b64Char (b1 / 4), b64Char (b1 % 4 * 16 + b2 / 16), b64Char (b2 % 16 * 4)]
  | b1 :: b2 :: b3 :: rest =>
      b64Char (b1 / 4) :: b64Char (b1 % 4 * 16 + b2 / 16) ::
        b64Char (b2 % 16 * 4 + b3 / 64) :: b64Char (b3 % 64) ::
          base64urlEncode rest

/-! ### MarketService (src/services/market.py) -/

namespace MarketService

/-- `MarketService._generate_unique_memo`: `secrets.token_urlsafe(6)[:8]`,
with the six random bytes passed in explicitly. -/
def _generate_unique_memo (randomBytes : List ℕ) : String :=
  ⟨(base64urlEncode randomBytes).take 8⟩

/-- `MarketService._build_paid_response`; `decrypt` models
`self.encryption.decrypt`. -/
def _build_paid_response (decrypt : String → String) (deal : LockedDeal) :
    CheckDealStatusResponse :=
  let decrypted_secret := decrypt deal.secret_content
  { status := "PAID",
    secret := some { reservation_code := decrypted_secret,
                     item_name := deal.item_name,
                     final_price := deal.final_price,
                     paid_at := deal.paid_at.getD 0 },
    proof := some { transaction_hash := deal.transaction_hash.getD "",
                    block_number := deal.block_number.getD "",
                    from_address := deal.from_address.getD "",
                    confirmed_at := deal.paid_at.getD 0 } }

/-- `MarketService._build_pending_response`; `walletAddress` and `network`
model `self.provider.get_address()` / `get_network_name()`. -/
def _build_pending_response (walletAddress network : String)
    (deal : LockedDeal) : CheckDealStatusResponse :=
  { status := "PENDING",
    payment_instructions := some
      { deal_id := deal.id,
        wallet_address := walletAddress,
        amount := deal.final_price,
        currency := deal.currency,
        memo := deal.payment_memo,
        network := network,
        expires_at := deal.expires_at } }

/-- `MarketService.check_status`. Explicit inputs: the row found for the
deal id (`deal?`), the current time, and the outcome the provider's
`verify_payment` would return if called. Outputs: the response, the row as
left in the database, and whether `verify_payment` was invoked. -/
def check_status (decrypt : String → String) (walletAddress network : String)
    (verifyResult : Option PaymentProof) (now : ℤ)
    (deal? : Option LockedDeal) :
    CheckDealStatusResponse × Option LockedDeal × Bool :=
  match deal? with
  | none => ({ status := "NOT_FOUND" }, none, false)
  | some deal =>
    -- expiry transition (PENDING only)
    if deal.status = DealStatus.PENDING ∧ now > deal.expires_at then
      let deal := { deal with status := DealStatus.EXPIRED, updated_at := now }
      ({ status := "EXPIRED" }, some deal, false)
    -- already paid: cached, idempotent
    else if deal.status = DealStatus.PAID then
      (_build_paid_response decrypt deal, some deal, false)
    -- pending: verify on-chain
    else if deal.status = DealStatus.PENDING then
      match verifyResult with
      | some proof =>
        let deal := { deal with
          status := DealStatus.PAID,
          transaction_hash := some proof.transaction_hash,
          block_number := some proof.block_number,
          from_address := some proof.from_address,
          paid_at := some proof.confirmed_at,
          updated_at := now }
        (_build_paid_response decrypt deal, some deal, true)
      | none => (_build_pending_response walletAddress network deal, some deal, true)
    -- unexpected status
    else
      ({ status := deal.status.value }, some deal, false)

/-- `MarketService.create_offer`; randomness, clock, encryption, ids and the
provider are explicit inputs. Returns the persisted row and the payment
instructions. -/
def create_offer (encrypt : String → String) (walletAddress network : String)
    (memoBytes : List ℕ) (dealId : String) (now : ℤ)
    (item_id item_name secret : String) (price : ℚ) (currency : String)
    (buyer_did : Option String) (ttl_seconds : ℤ) :
    LockedDeal × CryptoPaymentInstructions :=
  let memo := _generate_unique_memo memoBytes
  let expires_at := now + ttl_seconds
  let encrypted_secret := encrypt secret
  let deal : LockedDeal :=
    { id := dealId, item_id := item_id, item_name := item_name,
      final_price := price, currency := currency, payment_memo := memo,
      secret_content := encrypted_secret, status := DealStatus.PENDING,
      buyer_did := buyer_did, created_at := now, expires_at := expires_at,
      updated_at := now }
  (deal,
   { deal_id := dealId, wallet_address := walletAddress, amount := price,
     currency := currency, memo := memo, network := network,
     expires_at := expires_at })

end MarketService

/-! ### PriceConverter (src/crypto/pricing.py) -/

namespace PriceConverter

/-- `PriceConverter.FIXED_RATES` (USD per one crypto unit). -/
def FIXED_RATES : List (String × ℚ) := [("SOL", 100), ("USDC", 1)]

/-- `PriceConverter.convert_usd_to_crypto`; `Except.error` models the
`ValueError` on an unsupported currency. -/
def convert_usd_to_crypto (usd_amount : ℚ) (crypto_currency : String) :
    Except String ℚ :=
  match (FIXED_RATES.find? (fun p => p.1 == crypto_currency)) with
  | none => Except.error ("Unsupported currency: " ++ crypto_currency)
  | some p => Except.ok (qdiv usd_amount p.2)

end PriceConverter

/-! ### HiveConnector (src/hive/connector.py) -/

/-- `NegotiateResponse.accepted` payload. -/
structure AcceptedPayload where
  final_price : ℚ
  reservation_code : Option String := none
  crypto_payment : Option CryptoPaymentInstructions := none
  deriving DecidableEq, Repr

/-- The `oneof result` of a `NegotiateResponse`. -/
inductive ResponsePayload where
  | accepted (a : AcceptedPayload)
  | countered (proposed_price : ℚ) (human_message : String) (reason_code : String)
  | rejected (reason_code : String)
  | ui_required (template_id : String) (context_reason : String)
  deriving DecidableEq, Repr

/-- `NegotiateResponse` proto message. -/
structure NegotiateResponse where
  session_token : String
  valid_until_timestamp : ℤ
  payload : ResponsePayload
  deriving DecidableEq, Repr

/-- `Observation` dataclass (src/hive/dna.py) as produced by the connector. -/
structure ConnectorObservation where
  success : Bool
  data : NegotiateResponse
  event_type : String
  deriving DecidableEq, Repr

namespace HiveConnector

/-- Static configuration the connector reads from `settings.crypto` plus its
collaborators (`market_service` presence, provider address/network,
encryption, clock, randomness, deal-id generation). -/
structure ConnectorEnv where
  crypto_enabled : Bool
  market_service : Bool
  use_fixed_rates : Bool := true
  currency : String := "SOL"
  deal_ttl_seconds : ℤ := 3600
  encrypt : String → String
  walletAddress : String
  network : String
  memoBytes : List ℕ
  dealId : String
  now : ℤ

/-- `HiveConnector._handle_crypto_lock`. Returns the crypto amount, the
persisted deal and the payment instructions, or `none` when the body raised
(unsupported currency, or the converter's oracle path): the caller then
keeps the plain reservation code. -/
def _handle_crypto_lock (env : ConnectorEnv) (price : ℚ)
    (reservation_code : String) (context : HiveContext) :
    Option (ℚ × LockedDeal × CryptoPaymentInstructions) :=
  if ¬ env.use_fixed_rates then none
  else
    let item_name := context.item_data.name.getD "Aura Item"
    match PriceConverter.convert_usd_to_crypto price env.currency with
    | Except.error _ => none
    | Except.ok crypto_amount =>
      some (crypto_amount,
        MarketService.create_offer env.encrypt env.walletAddress env.network
          env.memoBytes env.dealId env.now context.item_id item_name
          reservation_code crypto_amount env.currency
          (some context.offer.agent_did) env.deal_ttl_seconds)

/-- `HiveConnector.act`: maps a (membrane-validated) decision to the wire
response; on accept with crypto enabled it runs `_handle_crypto_lock`,
clearing the plain reservation code on success. -/
def act (env : ConnectorEnv) (action : IntentAction) (context : HiveContext) :
    ConnectorObservation :=
  let session_token := "sess_" ++
    (if context.request_id ≠ "" then context.request_id else ⟨intRepr env.now⟩)
  let valid_until := env.now + 600
  let payload : ResponsePayload :=
    if action.action == "accept" then
      let base : AcceptedPayload :=
        { final_price := action.price,
          reservation_code := some ("HIVE-" ++ ⟨intRepr env.now⟩) }
      if env.crypto_enabled ∧ env.market_service then
        match _handle_crypto_lock env action.price
            ("HIVE-" ++ ⟨intRepr env.now⟩) context with
        | some (_, _, payment_instructions) =>
          ResponsePayload.accepted
            { base with reservation_code := none,
                        crypto_payment := some payment_instructions }
        | none => ResponsePayload.accepted base
      else ResponsePayload.accepted base
    else if action.action == "counter" then
      ResponsePayload.countered action.price action.message "NEGOTIATION_ONGOING"
    else if action.action == "reject" then
      ResponsePayload.rejected "OFFER_TOO_LOW"
    else
      ResponsePayload.rejected "INTERNAL_ERROR"
  { success := true,
    data := { session_token := session_token,
              valid_until_timestamp := valid_until,
              payload := payload },
    event_type := "negotiation_" ++ action.action }

end HiveConnector

/-! ### AuraTransformer (src/hive/transformer.py) -/

namespace AuraTransformer

/-- The `result["action"]` dict produced by the DSPy negotiator. -/
structure ActionData where
  action : String
  price : ℚ
  message : String
  deriving DecidableEq, Repr

/-- The negotiator's result: the action dict plus the auxiliary thought. -/
structure ReasonerResult where
  action_data : ActionData
  thought : String := ""
  deriving DecidableEq, Repr

/-- `AuraTransformer.think`, with the DSPy call's outcome passed in:
`Except.error e` models a raised `ValueError`/`KeyError`/`TypeError`/
`RuntimeError`, which is caught and converted to a `FailureIntent`. -/
def think (result : Except String ReasonerResult) : IntentAction :=
  match result with
  | Except.ok r =>
    { action := r.action_data.action, price := r.action_data.price,
      message := r.action_data.message, thought := r.thought }
  | Except.error e => FailureIntent e []

end AuraTransformer

/-! ### RuleBasedStrategy (src/llm_strategy.py) -/

namespace RuleBasedStrategy

/-- `InventoryItem` row fields the strategy reads (src/db.py). -/
structure InventoryItem where
  id : String
  name : String
  base_price : ℚ
  floor_price : ℚ
  deriving DecidableEq, Repr

/-- Idealised rendering of a Python float in an f-string. -/
def floatStr (q : ℚ) : String := ⟨intRepr q.num⟩ ++ "/" ++ ⟨natRepr q.den⟩

/-- `RuleBasedStrategy.evaluate`; the repository lookup result is the
`item?` argument, `now` feeds the reservation-code timestamp. -/
def evaluate (trigger_price : ℚ) (item? : Option InventoryItem) (bid : ℚ)
    (now : ℤ) : ResponsePayload :=
  match item? with
  | none => ResponsePayload.rejected "ITEM_NOT_FOUND"
  | some item =>
    -- Rule: high-value bids require UI confirmation
    if bid > trigger_price then
      ResponsePayload.ui_required "high_value_confirm"
        ("Bid of $" ++ floatStr bid ++ " exceeds security threshold")
    -- Rule: bid below floor price — counter with floor price
    else if bid < item.floor_price then
      ResponsePayload.countered item.floor_price
        ("We cannot accept less than $" ++ floatStr item.floor_price ++ ".")
        "BELOW_FLOOR"
    -- Rule: bid at or above floor price — accept
    else
      ResponsePayload.accepted
        { final_price := bid,
          reservation_code := some ("RULE-" ++ ⟨intRepr now⟩) }

/-- Default `trigger_price` of the constructor. -/
def DEFAULT_TRIGGER_PRICE : ℚ := 1000

end RuleBasedStrategy

/-! ### Gateway signature verification (src/api-gateway/src/security.py) -/

namespace Security

def TIMESTAMP_TOLERANCE_SECONDS : ℤ := 60

/-- Value of one hex digit. -/
def hexDigit? (c : Char) : Option ℕ :=
  if 48 ≤ c.toNat ∧ c.toNat ≤ 57 then some (c.toNat - 48)
  else if 97 ≤ c.toNat ∧ c.toNat ≤ 102 then some (c.toNat - 87)
  else if 65 ≤ c.toNat ∧ c.toNat ≤ 70 then some (c.toNat - 55)
  else none

/-- `bytes.fromhex`: pairs of hex digits; `none` models the `ValueError`. -/
def hexDecode : List Char → Option (List ℕ)
  | [] => some []
  | [_] => none
  | c1 :: c2 :: rest =>
    match hexDigit? c1, hexDigit? c2, hexDecode rest with
    | some h, some l, some bs => some ((h * 16 + l) :: bs)
    | _, _, _ => none

/-- `_validate_did_format`. -/
def _validate_did_format (did : String) : Bool :=
  if ¬ String.startsWith did "did:key:" then false
  else
    let public_key_part := (did.data.drop 8)
    if public_key_part.length = 0 then false
    else (hexDecode public_key_part).isSome

/-- Python `int(s)` on a decimal string: optional sign, at least one
digit. `none` models the `ValueError`. -/
def parseInt? (s : String) : Option ℤ :=
  let core := fun (l : List Char) =>
    if l ≠ [] ∧ l.all (fun c => 48 ≤ c.toNat ∧ c.toNat ≤ 57) then
      some (l.foldl (fun acc c => acc * 10 + ((c.toNat : ℤ) - 48)) 0)
    else none
  match s.data with
  | [] => none
  | c :: rest =>
    if c = Char.ofNat 45 then (core rest).map Neg.neg
    else if c = Char.ofNat 43 then core rest
    else core s.data

/-- A header value Python treats as absent (`None` or falsy `""`). -/
def headerMissing : Option String → Bool
  | none => true
  | some s => s == ""

/-- `verify_signature` (FastAPI dependency). Explicit inputs: the clock,
the SHA-256 hex digest on UTF-8 strings, the Ed25519 verifier
(public-key bytes, message, signature bytes), and `canonicalize`, which
models `json.dumps(json.loads(body), sort_keys=True, separators=(",", ":"))`
(`none` = `JSONDecodeError`). The result is the verified DID, or the
`HTTPException` status code and detail. -/
def verify_signature (now : ℤ) (sha256hex : String → String)
    (edVerify : List ℕ → String → List ℕ → Bool)
    (canonicalize : List ℕ → Option String)
    (method path : String)
    (x_agent_id x_timestamp x_signature : Option String)
    (body : List ℕ) : Except (ℕ × String) String :=
  -- 1. required headers present
  if headerMissing x_agent_id ∨ headerMissing x_timestamp ∨
      headerMissing x_signature then
    let missing_headers :=
      (if headerMissing x_agent_id then ["X-Agent-ID"] else []) ++
      (if headerMissing x_timestamp then ["X-Timestamp"] else []) ++
      (if headerMissing x_signature then ["X-Signature"] else [])
    Except.error (401, "Missing required security headers: " ++
      String.intercalate ", " missing_headers)
  else
    let agent_id := (x_agent_id.getD "")
    let ts := (x_timestamp.getD "")
    let sig := (x_signature.getD "")
    -- 2. DID format
    if ¬ _validate_did_format agent_id then
      Except.error (401, "Invalid DID format: " ++ agent_id ++
        ". Expected format: did:key:public_key_hex")
    else
      -- 3. timestamp freshness (replay protection)
      match parseInt? ts with
      | none =>
        Except.error (401, "Invalid timestamp format: " ++ ts ++
          ". Expected Unix timestamp")
      | some request_time =>
        if (now - request_time).natAbs > TIMESTAMP_TOLERANCE_SECONDS.natAbs then
          Except.error (401, "Request timestamp too old or in future.")
        else
          -- 4. public key from DID
          match hexDecode (agent_id.data.drop 8) with
          | none => Except.error (401, "Invalid public key in DID")
          | some public_key_bytes =>
            if public_key_bytes.length ≠ 32 then
              Except.error (401, "Invalid public key in DID")
            else
              -- 5. reconstruct the signed message
              let body_hash? : Option String :=
                if body ≠ [] then (canonicalize body).map sha256hex
                else some (sha256hex "")
              match body_hash? with
              | none => Except.error (400, "Invalid JSON body")
              | some body_hash =>
                let message := method ++ path ++ ts ++ body_hash
                -- 6. verify the signature
                match hexDecode sig.data with
                | none =>
                  Except.error (401,
                    "Invalid signature format. Expected a hex-encoded string.")
                | some signature_bytes =>
                  if edVerify public_key_bytes message signature_bytes then
                    Except.ok agent_id
                  else
                    Except.error (401,
                      "Invalid signature - request may have been tampered with")

end Security

/-! ### Concrete fixtures used by witnesses and counterexamples -/

/-- Context: floor 800, internal cost 900 (cost above floor). -/
def ctxCostAboveFloor : HiveContext :=
  { item_id := "hotel_alpha",
    offer := { bid_amount := 900, reputation := 1, agent_did := "buyer" },
    item_data := { base_price := some 1000, floor_price := some 800,
                   internal_cost := some 900 } }

/-- An accept at 900 against `ctxCostAboveFloor`. -/
def dAccept900 : IntentAction :=
  { action := "accept", price := 900, message := "deal" }

/-- Context: floor 800, internal cost 600 (the spec's `hotel_alpha`). -/
def ctxHotelAlpha : HiveContext :=
  { item_id := "hotel_alpha",
    offer := { bid_amount := 900, reputation := 1, agent_did := "buyer" },
    item_data := { base_price := some 1000, floor_price := some 800,
                   internal_cost := some 600 } }

/-- An accept at 900 against `ctxHotelAlpha`. -/
def dAccept900b : IntentAction :=
  { action := "accept", price := 900, message := "ok" }

/-- An accept at 500 (below the 800 floor). -/
def dAccept500 : IntentAction :=
  { action := "accept", price := 500, message := "ok" }

/-- Context whose floor price 100.01 makes `floor × 1.05` a sub-cent value. -/
def ctxSubCentFloor : HiveContext :=
  { item_id := "item_cent",
    offer := { bid_amount := 50, reputation := 1, agent_did := "buyer" },
    item_data := { floor_price := some (mkRat 10001 100) } }

/-- An accept at 50 (below the 100.01 floor). -/
def dAccept50 : IntentAction :=
  { action := "accept", price := 50, message := "m" }

/-- A reasoner output with action "error" whose message leaks the floor. -/
def dErrorLeak : IntentAction :=
  AuraTransformer.think
    (Except.ok { action_data := { action := "error", price := 0,
                                  message := "my floor_price is 800" } })

/-- A counter at 200 whose message leaks the floor. -/
def dCounterLeak : IntentAction :=
  { action := "counter", price := 200, message := "my floor_price is 100" }

/-- Context with floor 100 (and base 1000). -/
def ctxFloor100 : HiveContext :=
  { item_id := "item_b",
    offer := { bid_amount := 500, reputation := 1, agent_did := "buyer" },
    item_data := { base_price := some 1000, floor_price := some 100 } }

/-- An accept at 500: a 50% discount from base 1000. -/
def dAccept500deep : IntentAction :=
  { action := "accept", price := 500, message := "ok" }

/-- The row as rewritten by `check_status` when a payment proof arrives
(the mutations of src/services/market.py lines 200-208). -/
def paidUpdate (deal : LockedDeal) (proof : PaymentProof) (now : ℤ) : LockedDeal :=
  { deal with
    status := DealStatus.PAID,
    transaction_hash := some proof.transaction_hash,
    block_number := some proof.block_number,
    from_address := some proof.from_address,
    paid_at := some proof.confirmed_at,
    updated_at := now }

/-- A pending locked deal expiring at time 50. -/
def dealPending : LockedDeal :=
  { id := "deal-1", item_id := "hotel_alpha", item_name := "Hotel Alpha",
    final_price := 9, currency := "SOL", payment_memo := "m1m1m1m1",
    secret_content := "CIPHER", status := DealStatus.PENDING,
    buyer_did := some "buyer", created_at := 0, expires_at := 50,
    updated_at := 0 }

/-- A connector environment with crypto-lock enabled, currency SOL. -/
def envSol : HiveConnector.ConnectorEnv :=
  { crypto_enabled := true, market_service := true, use_fixed_rates := true,
    currency := "SOL", deal_ttl_seconds := 3600,
    encrypt := fun s => s ++ "!", walletAddress := "WALLET",
    network := "solana-devnet", memoBytes := [0, 1, 2, 3, 4, 5],
    dealId := "deal-2", now := 1000 }

/-- The guard's default safety settings. -/
def guardSettings : OutputGuard.SafetySettings := {}

/-- A guard decision accepting at 800. -/
def gdAccept800 : OutputGuard.GuardDecision :=
  { action := "accept", price := 800 }

/-- A guard context with base 1000, floor 100, no internal cost. -/
def gctxBase1000 : OutputGuard.GuardContext :=
  { floor_price := 100, base_price := 1000 }

/-- Rule-strategy item with base 1000, floor 800. -/
def itemHotel : RuleBasedStrategy.InventoryItem :=
  { id := "hotel_alpha", name := "Hotel Alpha", base_price := 1000,
    floor_price := 800 }

/-! ## Helper lemmas -/

theorem den_cast_ne (a : ℚ) : ((a.den : ℚ)) ≠ 0 := by
  exact_mod_cast a.den_nz

theorem num_eq_mul_den (a : ℚ) : (a.num : ℚ) = a * a.den := by
  have h := Rat.num_div_den a
  rw [div_eq_iff (den_cast_ne a)] at h
  exact h

theorem qmul_eq (a b : ℚ) : qmul a b = a * b := by
  rw [qmul, Rat.mkRat_eq_div]
  push_cast
  rw [mul_div_mul_comm, Rat.num_div_den, Rat.num_div_den]

theorem qadd_eq (a b : ℚ) : qadd a b = a + b := by
  rw [qadd, Rat.mkRat_eq_div]
  push_cast
  conv_rhs => rw [← Rat.num_div_den a, ← Rat.num_div_den b]
  rw [div_add_div _ _ (den_cast_ne a) (den_cast_ne b)]
  ring_nf

theorem qsub_eq (a b : ℚ) : qsub a b = a - b := by
  rw [qsub, Rat.mkRat_eq_div]
  push_cast
  conv_rhs => rw [← Rat.num_div_den a, ← Rat.num_div_den b]
  rw [div_sub_div _ _ (den_cast_ne a) (den_cast_ne b)]
  ring_nf

theorem qdiv_eq (a b : ℚ) : qdiv a b = a / b := by
  rw [qdiv, Rat.divInt_eq_div]
  rcases eq_or_ne b 0 with hb | hb
  · subst hb; simp
  · have hbn : (b.num : ℚ) ≠ 0 := by
      exact_mod_cast Rat.num_ne_zero.mpr hb
    push_cast
    rw [div_eq_div_iff (by exact mul_ne_zero (den_cast_ne a) hbn) hb]
    rw [num_eq_mul_den a, num_eq_mul_den b]
    ring

theorem intToRat_eq (i : ℤ) : intToRat i = (i : ℚ) := by
  rw [intToRat, Rat.mkRat_eq_div]
  simp

/-- `strContains` decides the infix (contiguous substring) relation. -/
theorem strContains_iff (hay pat : String) :
    strContains hay pat = true ↔ pat.data <:+: hay.data := by
  unfold strContains
  rw [List.any_eq_true]
  constructor
  · rintro ⟨t, ht, hp⟩
    rw [List.mem_tails] at ht
    rw [ List.isPrefixOf_iff_prefix] at hp
    obtain ⟨u, hu⟩ := hp
    obtain ⟨s, hs⟩ := ht
    exact ⟨s, u, by rw [List.append_assoc, hu, hs]⟩
  · rintro ⟨s, u, h⟩
    refine ⟨pat.data ++ u, ?_, ?_⟩
    · rw [List.mem_tails]
      exact ⟨s, by rw [← h, List.append_assoc]⟩
    · rw [ List.isPrefixOf_iff_prefix]
      exact ⟨u, rfl⟩

theorem toNat_ofNat_lt {n : ℕ} (h : n < 55296) : (Char.ofNat n).toNat = n := by
  unfold Char.ofNat
  rw [dif_pos (Or.inl h)]
  rfl

theorem natReprAux_no_underscore (fuel n : ℕ) :
    Char.ofNat 95 ∉ natReprAux fuel n := by
  induction fuel generalizing n with
  | zero =>
    simp [natReprAux]
  | succ fuel ih =>
    rw [natReprAux]
    split
    · rename_i h
      intro hmem
      simp at hmem
      have h1 : (Char.ofNat (48 + n)).toNat = 48 + n := toNat_ofNat_lt (by omega)
      have h2 : (Char.ofNat 95).toNat = 95 := toNat_ofNat_lt (by omega)
      rw [hmem] at h2
      omega
    · rename_i h
      intro hmem
      rw [List.mem_append] at hmem
      rcases hmem with hmem | hmem
      · exact ih (n / 10) hmem
      · simp at hmem
        have h1 : (Char.ofNat (48 + n % 10)).toNat = 48 + n % 10 :=
          toNat_ofNat_lt (by omega)
        have h2 : (Char.ofNat 95).toNat = 95 := toNat_ofNat_lt (by omega)
        rw [hmem] at h2
        omega

theorem natRepr_no_underscore (n : ℕ) : Char.ofNat 95 ∉ natRepr n :=
  natReprAux_no_underscore (n + 1) n

theorem intRepr_no_underscore (i : ℤ) : Char.ofNat 95 ∉ intRepr i := by
  rw [intRepr]
  split
  · intro hmem
    rcases List.mem_cons.mp hmem with h | h
    · have h2 : (Char.ofNat 95).toNat = 95 := toNat_ofNat_lt (by omega)
      have h1 : (Char.ofNat 45).toNat = 45 := toNat_ofNat_lt (by omega)
      rw [h] at h2
      omega
    · exact natRepr_no_underscore _ h
  · exact natRepr_no_underscore _

theorem money2_no_underscore (q : ℚ) : Char.ofNat 95 ∉ (money2 q).data := by
  rw [money2]
  intro hmem
  simp only [List.mem_append] at hmem
  rcases hmem with ((h | h) | h) | h
  · exact intRepr_no_underscore _ h
  · simp at h
  · split at h
    · simp at h
    · simp at h
  · exact natRepr_no_underscore _ h

theorem lowerChar_underscore {c : Char} (h : lowerChar c = Char.ofNat 95) :
    c = Char.ofNat 95 := by
  rw [lowerChar] at h
  split at h
  · rename_i hr
    have h1 : (Char.ofNat (c.toNat + 32)).toNat = c.toNat + 32 :=
      toNat_ofNat_lt (by omega)
    have h2 := congrArg Char.toNat h
    rw [h1, toNat_ofNat_lt (by omega)] at h2
    omega
  · exact h

/-- A string without an underscore cannot contain "floor_price", even after
lowercasing. -/
theorem no_underscore_no_floor_price {s : String}
    (h : Char.ofNat 95 ∉ s.data) :
    strContains (pyLower s) "floor_price" = false := by
  by_contra hcon
  rw [Bool.not_eq_false, strContains_iff] at hcon
  have hmem : Char.ofNat 95 ∈ (pyLower s).data :=
    hcon.subset (by decide)
  rw [pyLower] at hmem
  simp only [List.mem_map] at hmem
  obtain ⟨c, hc, hlc⟩ := hmem
  exact h (lowerChar_underscore hlc ▸ hc)

theorem safeOffer_no_floor_price (p : ℚ) :
    strContains (pyLower (HiveMembrane.safeOfferMessage p))
      "floor_price" = false := by
  apply no_underscore_no_floor_price
  rw [HiveMembrane.safeOfferMessage]
  intro hmem
  rw [String.data_append, String.data_append, List.mem_append,
    List.mem_append] at hmem
  rcases hmem with (h | h) | h
  · revert h
    decide
  · exact money2_no_underscore _ h
  · revert h
    decide

theorem dlp_no_floor_price :
    strContains (pyLower HiveMembrane.dlpMessage) "floor_price" = false := by
  decide

theorem strContains_append_left {a tag : String} (b : String)
    (h : strContains a tag = true) : strContains (a ++ b) tag = true := by
  rw [strContains_iff] at h ⊢
  rw [String.data_append]
  obtain ⟨s, t, hst⟩ := h
  exact ⟨s, t ++ b.data, by rw [← hst]; simp⟩

theorem strContains_append_tag (a tag : String) :
    strContains (a ++ tag) tag = true := by
  rw [strContains_iff, String.data_append]
  exact ⟨a.data, [], by simp⟩

theorem append_tag_ne_empty (a b : String) (hb : b.data ≠ []) : a ++ b ≠ "" := by
  intro h
  have hd := congrArg String.data h
  rw [String.data_append] at hd
  simp at hd
  exact hb hd.2

theorem mkRat105_eq : (mkRat 105 100 : ℚ) = 105 / 100 := by
  rw [Rat.mkRat_eq_div]
  norm_num

theorem memo_length (bs : List ℕ) (h : bs.length = 6) :
    (MarketService._generate_unique_memo bs).length = 8 := by
  obtain ⟨b1, b2, b3, b4, b5, b6, rfl⟩ :
      ∃ b1 b2 b3 b4 b5 b6, bs = [b1, b2, b3, b4, b5, b6] := by
    match bs, h with
    | [b1, b2, b3, b4, b5, b6], _ => exact ⟨b1, b2, b3, b4, b5, b6, rfl⟩
  rfl

open HiveMembrane in
/-- A post-membrane accept keeps the reasoner's price, which clears both the
floor check and the min-margin check. -/
theorem membrane_accept_char (m : ℚ) (d : IntentAction) (ctx : HiveContext)
    (h : (inspect_outbound m d ctx).action = "accept") :
    (inspect_outbound m d ctx).price = d.price ∧
    ¬ d.price < ctx.item_data.floor_price.getD 0 ∧
    ¬ d.price < qdiv (ctx.item_data.floor_price.getD 0)
        (qsub 1 (if 0 ≤ m ∧ m < 1 then m else DEFAULT_MIN_MARGIN)) := by
  by_cases h0 : (d.failure || d.action == "error") = true
  · simp [inspect_outbound, h0, overrideWithSafeOffer] at h
  · by_cases hdlp : strContains (pyLower d.message) "floor_price" = true
    · by_cases hpa : (d.action == "accept" || d.action == "counter") = true
      · by_cases hfl : d.price < ctx.item_data.floor_price.getD 0
        · simp [inspect_outbound, h0, hdlp, hpa, hfl, overrideWithSafeOffer] at h
        · by_cases hmg : d.price < qdiv (ctx.item_data.floor_price.getD 0)
              (qsub 1 (if 0 ≤ m ∧ m < 1 then m else DEFAULT_MIN_MARGIN))
          · simp [inspect_outbound, h0, hdlp, hpa, hfl, hmg,
              overrideWithSafeOffer] at h
          · refine ⟨?_, hfl, hmg⟩
            simp [inspect_outbound, h0, hdlp, hpa, hfl, hmg]
      · simp [inspect_outbound, h0, hdlp, hpa] at h
        simp [h] at hpa
    · by_cases hpa : (d.action == "accept" || d.action == "counter") = true
      · by_cases hfl : d.price < ctx.item_data.floor_price.getD 0
        · simp [inspect_outbound, h0, hdlp, hpa, hfl, overrideWithSafeOffer] at h
        · by_cases hmg : d.price < qdiv (ctx.item_data.floor_price.getD 0)
              (qsub 1 (if 0 ≤ m ∧ m < 1 then m else DEFAULT_MIN_MARGIN))
          · simp [inspect_outbound, h0, hdlp, hpa, hfl, hmg,
              overrideWithSafeOffer] at h
          · refine ⟨?_, hfl, hmg⟩
            simp [inspect_outbound, h0, hdlp, hpa, hfl, hmg]
      · simp [inspect_outbound, h0, hdlp, hpa] at h
        simp [h] at hpa

/-! ## Claim theorems -/

open HiveMembrane in
/-- Claim C1, counterexample: with floor 800 and `internal_cost = 900 > 0`,
the membrane passes an accept at 900 unchanged, yet its margin over the
internal cost is (900 − 900)/900 = 0 < 0.10, so the claimed invariant
`(price − internal_cost)/price ≥ min_margin` fails: the membrane's margin
rule uses only `floor_price`, never `internal_cost`. -/
theorem C1_margin_counterexample :
    ctxCostAboveFloor.item_data.internal_cost = some 900 ∧ (0 : ℚ) < 900 ∧
    (inspect_outbound (mkRat 1 10) dAccept900 ctxCostAboveFloor).action =
      "accept" ∧
    ¬ (((inspect_outbound (mkRat 1 10) dAccept900 ctxCostAboveFloor).price -
          900) /
        (inspect_outbound (mkRat 1 10) dAccept900 ctxCostAboveFloor).price ≥
          mkRat 1 10) := by
  have hout : inspect_outbound (mkRat 1 10) dAccept900 ctxCostAboveFloor =
      dAccept900 := by decide
  refine ⟨rfl, by norm_num, by rw [hout]; rfl, ?_⟩
  rw [hout]
  show ¬ ((900 - 900 : ℚ) / 900 ≥ mkRat 1 10)
  rw [Rat.mkRat_eq_div]
  norm_num

open HiveMembrane in
/-- Claim C1 (amended): for a valid configured `min_margin` and an item whose
meta carries `0 < internal_cost ≤ floor_price`, every post-membrane accept
satisfies `(price − internal_cost)/price ≥ min_margin`. -/
theorem C1_accept_margin (minMargin : ℚ) (d : IntentAction)
    (ctx : HiveContext) (c : ℚ)
    (hc : ctx.item_data.internal_cost = some c) (hc0 : 0 < c)
    (hcf : c ≤ ctx.item_data.floor_price.getD 0)
    (hm : 0 ≤ minMargin ∧ minMargin < 1)
    (hacc : (inspect_outbound minMargin d ctx).action = "accept") :
    ((inspect_outbound minMargin d ctx).price - c) /
      (inspect_outbound minMargin d ctx).price ≥ minMargin := by
  obtain ⟨hp, hfl, hmg⟩ := membrane_accept_char minMargin d ctx hacc
  rw [if_pos hm] at hmg
  rw [qdiv_eq, qsub_eq] at hmg
  rw [hp]
  set F := ctx.item_data.floor_price.getD 0 with hF
  set p := d.price with hpd
  have h1m : (0 : ℚ) < 1 - minMargin := by linarith [hm.2]
  have hreq : F / (1 - minMargin) ≤ p := not_lt.mp hmg
  have hcF : c / (1 - minMargin) ≤ F / (1 - minMargin) := by
    apply div_le_div_of_nonneg_right hcf h1m.le
  have hcp : c / (1 - minMargin) ≤ p := le_trans hcF hreq
  have hp0 : 0 < p := lt_of_lt_of_le (div_pos hc0 h1m) hcp
  rw [ge_iff_le, le_div_iff₀ hp0]
  have hkey := (div_le_iff₀ h1m).mp hcp
  linarith

open HiveMembrane in
/-- Claim C1, witness: floor 800, internal cost 600, accept at 900 survives
the membrane and yields margin (900 − 600)/900 = 1/3 ≥ 0.10. -/
theorem C1_accept_margin_witness :
    (ctxHotelAlpha.item_data.internal_cost = some 600 ∧ (0 : ℚ) < 600 ∧
      (600 : ℚ) ≤ ctxHotelAlpha.item_data.floor_price.getD 0 ∧
      (0 ≤ mkRat 1 10 ∧ mkRat 1 10 < 1) ∧
      (inspect_outbound (mkRat 1 10) dAccept900b ctxHotelAlpha).action =
        "accept") ∧
    ((inspect_outbound (mkRat 1 10) dAccept900b ctxHotelAlpha).price - 600) /
      (inspect_outbound (mkRat 1 10) dAccept900b ctxHotelAlpha).price ≥
        mkRat 1 10 :=
  ⟨⟨rfl, by decide, by decide, by decide, by decide⟩,
   C1_accept_margin (mkRat 1 10) dAccept900b ctxHotelAlpha 600 rfl
     (by decide) (by decide) (by decide) (by decide)⟩

open HiveMembrane in
/-- Claim C2, counterexample: with floor price 100.01 the override price is
`round(105.0105, 2) = 105.01`, not `floor × 1.05 = 105.0105`: the safe
offer is rounded to cents before being returned. -/
theorem C2_floor_override_counterexample :
    dAccept50.action = "accept" ∧
    dAccept50.price < ctxSubCentFloor.item_data.floor_price.getD 0 ∧
    (inspect_outbound (mkRat 1 10) dAccept50 ctxSubCentFloor).action =
      "counter" ∧
    (inspect_outbound (mkRat 1 10) dAccept50 ctxSubCentFloor).metadata =
      [("original_decision", MetaVal.str "accept"),
       ("original_price", MetaVal.num 50),
       ("override_reason", MetaVal.str "FLOOR_PRICE_VIOLATION")] ∧
    ¬ ((inspect_outbound (mkRat 1 10) dAccept50 ctxSubCentFloor).price =
        ctxSubCentFloor.item_data.floor_price.getD 0 * (105 / 100)) := by
  have hp : (inspect_outbound (mkRat 1 10) dAccept50 ctxSubCentFloor).price =
      mkRat 10501 100 := by decide
  refine ⟨rfl, by decide, by decide, by decide, ?_⟩
  rw [hp]
  show ¬ (mkRat 10501 100 = mkRat 10001 100 * (105 / 100))
  rw [Rat.mkRat_eq_div, Rat.mkRat_eq_div]
  norm_num

open HiveMembrane in
/-- Claim C2 (amended): a non-failure accept/counter priced below the floor
is rewritten to a counter at `floor × 1.05` rounded to cents, with reason
`FLOOR_PRICE_VIOLATION`, and the original action and price are recorded
under `metadata.original_decision` / `metadata.original_price`. -/
theorem C2_floor_override (m : ℚ) (d : IntentAction) (ctx : HiveContext)
    (hfail : d.failure = false) (hner : d.action ≠ "error")
    (ha : d.action = "accept" ∨ d.action = "counter")
    (hlt : d.price < ctx.item_data.floor_price.getD 0) :
    (inspect_outbound m d ctx).action = "counter" ∧
    (inspect_outbound m d ctx).price =
      round2 (ctx.item_data.floor_price.getD 0 * (105 / 100)) ∧
    (inspect_outbound m d ctx).metadata =
      [("original_decision", MetaVal.str d.action),
       ("original_price", MetaVal.num d.price),
       ("override_reason", MetaVal.str "FLOOR_PRICE_VIOLATION")] := by
  have h0 : (d.failure || d.action == "error") = false := by simp [hfail, hner]
  have hpa : (d.action == "accept" || d.action == "counter") = true := by
    rcases ha with h | h <;> simp [h]
  have hq : qmul (ctx.item_data.floor_price.getD 0) (mkRat 105 100) =
      ctx.item_data.floor_price.getD 0 * (105 / 100) := by
    rw [qmul_eq, mkRat105_eq]
  by_cases hdlp : strContains (pyLower d.message) "floor_price" = true <;>
  simp [inspect_outbound, h0, hdlp, hpa, hlt, overrideWithSafeOffer, hq]

open HiveMembrane in
/-- Claim C2, witness: an accept at 500 against floor 800 becomes a counter
at 840 with `FLOOR_PRICE_VIOLATION` and the original action and price in
the metadata. -/
theorem C2_floor_override_witness :
    (dAccept500.failure = false ∧ dAccept500.action ≠ "error" ∧
      (dAccept500.action = "accept" ∨ dAccept500.action = "counter") ∧
      dAccept500.price < ctxHotelAlpha.item_data.floor_price.getD 0) ∧
    ((inspect_outbound (mkRat 1 10) dAccept500 ctxHotelAlpha).action =
        "counter" ∧
     (inspect_outbound (mkRat 1 10) dAccept500 ctxHotelAlpha).price =
        round2 (ctxHotelAlpha.item_data.floor_price.getD 0 * (105 / 100)) ∧
     (inspect_outbound (mkRat 1 10) dAccept500 ctxHotelAlpha).metadata =
        [("original_decision", MetaVal.str dAccept500.action),
         ("original_price", MetaVal.num dAccept500.price),
         ("override_reason", MetaVal.str "FLOOR_PRICE_VIOLATION")]) :=
  ⟨⟨rfl, by decide, Or.inl rfl, by decide⟩,
   C2_floor_override (mkRat 1 10) dAccept500 ctxHotelAlpha rfl (by decide)
     (Or.inl rfl) (by decide)⟩

/-- Claim C3: the deal state machine of `check_status`. A PENDING deal seen
past `expires_at` transitions to EXPIRED (without calling the chain); a
PENDING unexpired deal with a verified proof transitions to PAID; PAID and
EXPIRED rows are returned unchanged without re-verification; and once a call
has answered PAID, every later call returns the identical response (same
secret, same proof), does not invoke `verify_payment`, and leaves the row
untouched. -/
theorem C3_deal_state_machine (decrypt : String → String) (wa nw : String)
    (v : Option PaymentProof) (now : ℤ) (deal : LockedDeal) :
    (deal.status = DealStatus.PENDING → now > deal.expires_at →
      MarketService.check_status decrypt wa nw v now (some deal) =
        ({ status := "EXPIRED" },
         some { deal with status := DealStatus.EXPIRED, updated_at := now },
         false)) ∧
    (∀ proof, deal.status = DealStatus.PENDING → ¬ now > deal.expires_at →
      v = some proof →
      MarketService.check_status decrypt wa nw v now (some deal) =
        (MarketService._build_paid_response decrypt (paidUpdate deal proof now),
         some (paidUpdate deal proof now), true)) ∧
    (deal.status = DealStatus.PAID →
      MarketService.check_status decrypt wa nw v now (some deal) =
        (MarketService._build_paid_response decrypt deal, some deal, false)) ∧
    (deal.status = DealStatus.EXPIRED →
      MarketService.check_status decrypt wa nw v now (some deal) =
        ({ status := "EXPIRED" }, some deal, false)) ∧
    (∀ r1 s1 b1,
      MarketService.check_status decrypt wa nw v now (some deal) =
        (r1, s1, b1) →
      r1.status = "PAID" →
      ∀ v2 now2,
        MarketService.check_status decrypt wa nw v2 now2 s1 =
          (r1, s1, false)) := by
  refine ⟨?_, ?_, ?_, ?_, ?_⟩
  · intro h he
    simp [MarketService.check_status, h, he]
  · intro proof h he hv
    subst hv
    simp [MarketService.check_status, h, he, paidUpdate]
  · intro h
    simp [MarketService.check_status, h]
  · intro h
    simp [MarketService.check_status, h, DealStatus.value]
  · intro r1 s1 b1 hrun hpaid v2 now2
    rcases hst : deal.status with _ | _ | _
    · by_cases he : now > deal.expires_at
      · rw [MarketService.check_status.eq_def] at hrun
        simp [hst, he] at hrun
        obtain ⟨h1, _, _⟩ := hrun
        rw [← h1] at hpaid
        simp at hpaid
      · rcases hv : v with _ | proof
        · subst hv
          rw [MarketService.check_status.eq_def] at hrun
          simp [hst, he] at hrun
          obtain ⟨h1, _, _⟩ := hrun
          rw [← h1] at hpaid
          simp [MarketService._build_pending_response] at hpaid
        · subst hv
          rw [MarketService.check_status.eq_def] at hrun
          simp [hst, he] at hrun
          obtain ⟨h1, h2, h3⟩ := hrun
          subst h1 h2
          simp [MarketService.check_status]
    · rw [MarketService.check_status.eq_def] at hrun
      simp [hst] at hrun
      obtain ⟨h1, h2, h3⟩ := hrun
      subst h1 h2
      simp [MarketService.check_status, hst]
    · rw [MarketService.check_status.eq_def] at hrun
      simp [hst, DealStatus.value] at hrun
      obtain ⟨h1, _, _⟩ := hrun
      rw [← h1] at hpaid
      simp at hpaid

/-- Claim C3, witness: the pending deal expiring at 50, checked at time 100,
expires in place. -/
theorem C3_deal_state_machine_witness :
    (dealPending.status = DealStatus.PENDING ∧
      (100 : ℤ) > dealPending.expires_at) ∧
    MarketService.check_status (fun s => s) "WALLET" "solana-devnet" none 100
        (some dealPending) =
      ({ status := "EXPIRED" },
       some { dealPending with
              status := DealStatus.EXPIRED,
              updated_at := 100 },
       false) :=
  ⟨⟨rfl, by decide⟩,
   (C3_deal_state_machine (fun s => s) "WALLET" "solana-devnet" none 100
     dealPending).1 rfl (by decide)⟩

open HiveConnector in
/-- Claim C4: with crypto-lock enabled and a supported currency, an accepted
negotiation returns a response whose plaintext reservation code is cleared
and replaced by crypto payment instructions carrying the provider wallet
address, the USD price converted at the fixed rate (SOL = 100, USDC = 1),
the currency, an 8-character memo, the network, and the expiry time; in
particular 900 USD at SOL yields amount 9. -/
theorem C4_crypto_lock (env : ConnectorEnv) (d : IntentAction)
    (ctx : HiveContext)
    (hen : env.crypto_enabled = true) (hms : env.market_service = true)
    (hfx : env.use_fixed_rates = true)
    (hcur : env.currency = "SOL" ∨ env.currency = "USDC")
    (hacc : d.action = "accept") (hmb : env.memoBytes.length = 6) :
    ∃ instr : CryptoPaymentInstructions,
      (act env d ctx).data.payload =
        ResponsePayload.accepted
          { final_price := d.price, reservation_code := none,
            crypto_payment := some instr } ∧
      instr.wallet_address = env.walletAddress ∧
      instr.amount = d.price / (if env.currency = "SOL" then 100 else 1) ∧
      instr.currency = env.currency ∧
      instr.memo.length = 8 ∧
      instr.network = env.network ∧
      instr.expires_at = env.now + env.deal_ttl_seconds ∧
      (d.price = 900 → env.currency = "SOL" → instr.amount = 9) := by
  rcases hcur with hcu | hcu
  · refine ⟨⟨env.dealId, env.walletAddress, qdiv d.price 100, env.currency,
      MarketService._generate_unique_memo env.memoBytes, env.network,
      env.now + env.deal_ttl_seconds⟩, ?_, rfl, ?_, rfl,
      memo_length _ hmb, rfl, rfl, ?_⟩
    · simp [act, hacc, hen, hms, _handle_crypto_lock, hfx,
        PriceConverter.convert_usd_to_crypto, PriceConverter.FIXED_RATES, hcu,
        MarketService.create_offer]
    · simp [hcu, qdiv_eq]
    · intro hp _
      simp [hp, qdiv_eq]
      norm_num
  · refine ⟨⟨env.dealId, env.walletAddress, qdiv d.price 1, env.currency,
      MarketService._generate_unique_memo env.memoBytes, env.network,
      env.now + env.deal_ttl_seconds⟩, ?_, rfl, ?_, rfl,
      memo_length _ hmb, rfl, rfl, ?_⟩
    · simp [act, hacc, hen, hms, _handle_crypto_lock, hfx,
        PriceConverter.convert_usd_to_crypto, PriceConverter.FIXED_RATES, hcu,
        MarketService.create_offer]
    · simp [hcu, qdiv_eq]
    · intro hp hcon
      rw [hcu] at hcon
      simp at hcon

/-- Claim C4, witness: the SOL environment with an accept at 900 produces
instructions with the provider wallet, amount 9, currency SOL, an 8-char
memo, the network name and `now + ttl`. -/
theorem C4_crypto_lock_witness :
    (envSol.crypto_enabled = true ∧ envSol.market_service = true ∧
      envSol.use_fixed_rates = true ∧
      (envSol.currency = "SOL" ∨ envSol.currency = "USDC") ∧
      dAccept900b.action = "accept" ∧ envSol.memoBytes.length = 6) ∧
    ∃ instr : CryptoPaymentInstructions,
      (HiveConnector.act envSol dAccept900b ctxHotelAlpha).data.payload =
        ResponsePayload.accepted
          { final_price := dAccept900b.price, reservation_code := none,
            crypto_payment := some instr } ∧
      instr.wallet_address = envSol.walletAddress ∧
      instr.amount = dAccept900b.price /
        (if envSol.currency = "SOL" then 100 else 1) ∧
      instr.currency = envSol.currency ∧
      instr.memo.length = 8 ∧
      instr.network = envSol.network ∧
      instr.expires_at = envSol.now + envSol.deal_ttl_seconds ∧
      (dAccept900b.price = 900 → envSol.currency = "SOL" →
        instr.amount = 9) :=
  ⟨⟨rfl, rfl, rfl, Or.inl rfl, rfl, by decide⟩,
   C4_crypto_lock envSol dAccept900b ctxHotelAlpha rfl rfl rfl (Or.inl rfl)
     rfl (by decide)⟩

open HiveMembrane in
/-- Claim C5, counterexample: a reasoner output with action "error" whose
message leaks "floor_price" is handled by the failure-recovery rule, which
neither appends the DLP tag to `thought` nor installs the DLP replacement
phrase, so the claimed "whenever the message contains it, the membrane
replaces it and appends a DLP tag" fails for this input (the leak itself is
still scrubbed, as the first conjunct of the amended claim shows). -/
theorem C5_dlp_counterexample :
    strContains (pyLower dErrorLeak.message) "floor_price" = true ∧
    strContains (inspect_outbound (mkRat 1 10) dErrorLeak ctxHotelAlpha).thought
      dlpTag = false ∧
    (inspect_outbound (mkRat 1 10) dErrorLeak ctxHotelAlpha).message ≠
      dlpMessage := by
  decide

open HiveMembrane in
/-- Claim C5 (amended): after the outbound membrane, "floor_price" never
occurs (case-insensitively) in the message; and whenever a non-failure
intent's message contains it, the membrane's output carries the DLP tag in
`thought` and its message is one of the fixed generic phrases (the DLP
phrase, or the safe-offer phrase when an economic override follows). -/
theorem C5_dlp (m : ℚ) (d : IntentAction) (ctx : HiveContext) :
    strContains (pyLower (inspect_outbound m d ctx).message)
      "floor_price" = false ∧
    (d.failure = false → d.action ≠ "error" →
      strContains (pyLower d.message) "floor_price" = true →
      strContains (inspect_outbound m d ctx).thought dlpTag = true ∧
      ((inspect_outbound m d ctx).message = dlpMessage ∨
       (inspect_outbound m d ctx).message =
         safeOfferMessage ((inspect_outbound m d ctx).price))) := by
  constructor
  · by_cases h0 : (d.failure || d.action == "error") = true <;>
    by_cases hdlp : strContains (pyLower d.message) "floor_price" = true <;>
    by_cases hpa : (d.action == "accept" || d.action == "counter") = true <;>
    by_cases hfl : d.price < ctx.item_data.floor_price.getD 0 <;>
    by_cases hmg : d.price < qdiv (ctx.item_data.floor_price.getD 0)
        (qsub 1 (if 0 ≤ m ∧ m < 1 then m else DEFAULT_MIN_MARGIN)) <;>
    simp [inspect_outbound, h0, hdlp, hpa, hfl, hmg, overrideWithSafeOffer,
      safeOffer_no_floor_price, dlp_no_floor_price, Bool.not_eq_true]
  · intro hfail hner hdlp
    have h0 : (d.failure || d.action == "error") = false := by
      simp [hfail, hner]
    have hne : (d.thought ++ dlpTag) ≠ "" :=
      append_tag_ne_empty _ _ (by decide)
    have htag : strContains (d.thought ++ dlpTag) dlpTag = true :=
      strContains_append_tag _ _
    by_cases hpa : (d.action == "accept" || d.action == "counter") = true <;>
    by_cases hfl : d.price < ctx.item_data.floor_price.getD 0 <;>
    by_cases hmg : d.price < qdiv (ctx.item_data.floor_price.getD 0)
        (qsub 1 (if 0 ≤ m ∧ m < 1 then m else DEFAULT_MIN_MARGIN)) <;>
    simp [inspect_outbound, h0, hdlp, hpa, hfl, hmg, overrideWithSafeOffer,
      hne, htag, strContains_append_tag, strContains_append_left,
      Bool.not_eq_true]

open HiveMembrane in
/-- Claim C5, witness: a counter at 200 leaking "floor_price" against floor
100 keeps its price, gets the DLP phrase as message and the DLP tag in its
thought. -/
theorem C5_dlp_witness :
    (dCounterLeak.failure = false ∧ dCounterLeak.action ≠ "error" ∧
      strContains (pyLower dCounterLeak.message) "floor_price" = true) ∧
    strContains (pyLower
        (inspect_outbound (mkRat 1 10) dCounterLeak ctxFloor100).message)
      "floor_price" = false ∧
    strContains (inspect_outbound (mkRat 1 10) dCounterLeak ctxFloor100).thought
      dlpTag = true ∧
    ((inspect_outbound (mkRat 1 10) dCounterLeak ctxFloor100).message =
        dlpMessage ∨
     (inspect_outbound (mkRat 1 10) dCounterLeak ctxFloor100).message =
        safeOfferMessage
          ((inspect_outbound (mkRat 1 10) dCounterLeak ctxFloor100).price)) :=
  ⟨⟨rfl, by decide, by decide⟩,
   (C5_dlp (mkRat 1 10) dCounterLeak ctxFloor100).1,
   (C5_dlp (mkRat 1 10) dCounterLeak ctxFloor100).2 rfl (by decide)
     (by decide)⟩

open HiveMembrane AuraTransformer in
/-- Claim C6, counterexample: with floor 100.01, the failure-recovery
counter sits at `round(105.0105, 2) = 105.01`, not `floor × 1.05`: the
recovery price is rounded to cents. -/
theorem C6_failure_counterexample :
    (inspect_outbound (mkRat 1 10) (think (Except.error "boom"))
        ctxSubCentFloor).action = "counter" ∧
    (inspect_outbound (mkRat 1 10) (think (Except.error "boom"))
        ctxSubCentFloor).metadata =
      [("original_decision", MetaVal.str "error"),
       ("original_price", MetaVal.num 0),
       ("override_reason", MetaVal.str "FAILURE_RECOVERY")] ∧
    ¬ ((inspect_outbound (mkRat 1 10) (think (Except.error "boom"))
          ctxSubCentFloor).price =
        ctxSubCentFloor.item_data.floor_price.getD 0 * (105 / 100)) := by
  have hp : (inspect_outbound (mkRat 1 10) (think (Except.error "boom"))
      ctxSubCentFloor).price = mkRat 10501 100 := by decide
  refine ⟨by decide, by decide, ?_⟩
  rw [hp]
  show ¬ (mkRat 10501 100 = mkRat 10001 100 * (105 / 100))
  rw [Rat.mkRat_eq_div, Rat.mkRat_eq_div]
  norm_num

open HiveMembrane AuraTransformer in
/-- Claim C6 (amended): when the reasoner errors, the transformer returns a
`FailureIntent` (it is a total function, so nothing is raised), and the
membrane rewrites it to a counter at `floor × 1.05` rounded to cents with
reason `FAILURE_RECOVERY` and the generic safe-offer message; the connector
then still produces a successful countered response. -/
theorem C6_failure_recovery (e : String) (m : ℚ) (ctx : HiveContext)
    (env : HiveConnector.ConnectorEnv) :
    (think (Except.error e)).failure = true ∧
    think (Except.error e) = FailureIntent e [] ∧
    (inspect_outbound m (think (Except.error e)) ctx).action = "counter" ∧
    (inspect_outbound m (think (Except.error e)) ctx).price =
      round2 (ctx.item_data.floor_price.getD 0 * (105 / 100)) ∧
    (inspect_outbound m (think (Except.error e)) ctx).metadata =
      [("original_decision", MetaVal.str "error"),
       ("original_price", MetaVal.num 0),
       ("override_reason", MetaVal.str "FAILURE_RECOVERY")] ∧
    (inspect_outbound m (think (Except.error e)) ctx).message =
      safeOfferMessage
        ((inspect_outbound m (think (Except.error e)) ctx).price) ∧
    (HiveConnector.act env (inspect_outbound m (think (Except.error e)) ctx)
        ctx).success = true ∧
    (HiveConnector.act env (inspect_outbound m (think (Except.error e)) ctx)
        ctx).data.payload =
      ResponsePayload.countered
        ((inspect_outbound m (think (Except.error e)) ctx).price)
        ((inspect_outbound m (think (Except.error e)) ctx).message)
        "NEGOTIATION_ONGOING" := by
  have hq : qmul (ctx.item_data.floor_price.getD 0) (mkRat 105 100) =
      ctx.item_data.floor_price.getD 0 * (105 / 100) := by
    rw [qmul_eq, mkRat105_eq]
  refine ⟨rfl, rfl, ?_⟩
  simp [think, FailureIntent, inspect_outbound, overrideWithSafeOffer, hq,
    HiveConnector.act]

open HiveMembrane in
/-- Claim C7, counterexample: an accept at 500 against base 1000 and floor
100 passes the membrane unchanged although the discount is 50% > 30%: the
pipeline membrane has no discount rule and no `DISCOUNT_LIMIT` rewrite
exists. -/
theorem C7_discount_counterexample :
    dAccept500deep.action = "accept" ∧
    inspect_outbound (mkRat 1 10) dAccept500deep ctxFloor100 =
      dAccept500deep ∧
    (ctxFloor100.item_data.base_price.getD 0 - dAccept500deep.price) /
      ctxFloor100.item_data.base_price.getD 0 > mkRat 3 10 := by
  refine ⟨rfl, by decide, ?_⟩
  show ((1000 : ℚ) - 500) / 1000 > mkRat 3 10
  rw [Rat.mkRat_eq_div]
  norm_num

open OutputGuard in
/-- Claim C7 (amended): the discount limit is enforced only by the
`OutputGuard` used inside the DSPy strategy, and by rejection rather than
rewriting: any accept/counter decision that `validate_decision` lets
through respects `(base_price − price)/base_price ≤ max_discount_percent`. -/
theorem C7_discount_guard (settings : SafetySettings) (d : GuardDecision)
    (ctx : GuardContext)
    (ha : d.action = "accept" ∨ d.action = "counter")
    (hb : 0 < ctx.base_price)
    (hok : validate_decision settings d ctx = Except.ok ()) :
    (ctx.base_price - d.price) / ctx.base_price ≤
      settings.max_discount_percent := by
  have hpa : (d.action == "accept" || d.action == "counter") = true := by
    rcases ha with h | h <;> simp [h]
  rw [validate_decision] at hok
  split_ifs at hok with h1 h2 h3 h4
  · have hnd : ¬ settings.max_discount_percent <
        qdiv (qsub ctx.base_price d.price) ctx.base_price := fun hq =>
      h4 ⟨hb, hpa, hq⟩
    rw [qdiv_eq, qsub_eq] at hnd
    exact not_lt.mp hnd

open OutputGuard in
/-- Claim C7, witness: the default guard admits an accept at 800 against
base 1000, whose discount 1/5 is within the 30% limit. -/
theorem C7_discount_guard_witness :
    ((gdAccept800.action = "accept" ∨ gdAccept800.action = "counter") ∧
      (0 : ℚ) < gctxBase1000.base_price ∧
      validate_decision guardSettings gdAccept800 gctxBase1000 =
        Except.ok ()) ∧
    (gctxBase1000.base_price - gdAccept800.price) / gctxBase1000.base_price ≤
      guardSettings.max_discount_percent :=
  ⟨⟨Or.inl rfl, by decide, by rfl⟩,
   C7_discount_guard guardSettings gdAccept800 gctxBase1000 (Or.inl rfl)
     (by decide) (by rfl)⟩

open Security in
/-- Claim C8: `verify_signature` admits a request exactly when the three
security headers are present and well-formed (valid DID with a 32-byte key,
parsable timestamp, hex signature), the timestamp is within 60 seconds of
now, and the Ed25519 signature verifies over METHOD ‖ PATH ‖ timestamp ‖
body_hash, where body_hash hashes the canonical re-serialization of the
JSON body (the empty body hashing the empty string); every failure is a 401
except a malformed JSON body, which is the 400 of the gateway's BadRequest
policy. -/
theorem C8_verify_signature (now : ℤ) (sha256hex : String → String)
    (edVerify : List ℕ → String → List ℕ → Bool)
    (canonicalize : List ℕ → Option String)
    (method path : String)
    (x_agent_id x_timestamp x_signature : Option String)
    (body : List ℕ) :
    ((∃ did, verify_signature now sha256hex edVerify canonicalize method path
        x_agent_id x_timestamp x_signature body = Except.ok did) ↔
      (¬ headerMissing x_agent_id ∧ ¬ headerMissing x_timestamp ∧
        ¬ headerMissing x_signature ∧
        _validate_did_format (x_agent_id.getD "") = true ∧
        (∃ request_time, parseInt? (x_timestamp.getD "") = some request_time ∧
          (now - request_time).natAbs ≤ 60) ∧
        (∃ public_key_bytes,
          hexDecode ((x_agent_id.getD "").data.drop 8) =
            some public_key_bytes ∧
          public_key_bytes.length = 32 ∧
          ∃ body_hash,
            (if body = [] then some (sha256hex "")
             else (canonicalize body).map sha256hex) = some body_hash ∧
            ∃ signature_bytes,
              hexDecode (x_signature.getD "").data = some signature_bytes ∧
              edVerify public_key_bytes
                (method ++ path ++ (x_timestamp.getD "") ++ body_hash)
                signature_bytes = true))) ∧
    (∀ code detail, verify_signature now sha256hex edVerify canonicalize
        method path x_agent_id x_timestamp x_signature body =
          Except.error (code, detail) →
      code = 401 ∨ (code = 400 ∧ body ≠ [] ∧ canonicalize body = none)) := by
  have htol : TIMESTAMP_TOLERANCE_SECONDS.natAbs = 60 := rfl
  by_cases h1 : (headerMissing x_agent_id = true ∨
      headerMissing x_timestamp = true ∨ headerMissing x_signature = true)
  · constructor
    · constructor
      · rintro ⟨did, h⟩
        simp [verify_signature, h1] at h
      · rintro ⟨ha, hb, hc, _⟩
        rcases h1 with h | h | h <;> simp [h] at ha hb hc
    · intro c d h
      simp [verify_signature, h1] at h
      exact Or.inl h.1.symm
  · push_neg at h1
    obtain ⟨ha, hb, hc⟩ := h1
    by_cases h2 : _validate_did_format (x_agent_id.getD "") = true
    · rcases hpt : parseInt? (x_timestamp.getD "") with _ | rt
      · constructor
        · constructor
          · rintro ⟨did, h⟩
            simp [verify_signature, ha, hb, hc, h2, hpt] at h
          · rintro ⟨_, _, _, _, ⟨rt, hrt, _⟩, _⟩
            exact absurd hrt (by simp)
        · intro c d h
          simp [verify_signature, ha, hb, hc, h2, hpt] at h
          exact Or.inl h.1.symm
      · by_cases h4 : (now - rt).natAbs > 60
        · constructor
          · constructor
            · rintro ⟨did, h⟩
              simp [verify_signature, ha, hb, hc, h2, hpt, htol, h4] at h
            · rintro ⟨_, _, _, _, ⟨rt2, hrt2, hle⟩, _⟩
              obtain rfl : rt = rt2 := by simpa using hrt2
              omega
          · intro c d h
            simp [verify_signature, ha, hb, hc, h2, hpt, htol, h4] at h
            exact Or.inl h.1.symm
        · rcases hkey : hexDecode ((x_agent_id.getD "").data.drop 8)
              with _ | key
          · constructor
            · constructor
              · rintro ⟨did, h⟩
                simp [verify_signature, ha, hb, hc, h2, hpt, htol, h4,
                  hkey] at h
              · rintro ⟨_, _, _, _, _, ⟨k, hk, _⟩⟩
                exact absurd hk (by simp)
            · intro c d h
              simp [verify_signature, ha, hb, hc, h2, hpt, htol, h4, hkey] at h
              exact Or.inl h.1.symm
          · by_cases h6 : key.length = 32
            · rcases hbh : (if body = [] then some (sha256hex "")
                  else (canonicalize body).map sha256hex) with _ | bh
              · have hbody : body ≠ [] := by
                  intro hcon
                  rw [if_pos hcon] at hbh
                  exact absurd hbh (by simp)
                have hcanon : canonicalize body = none := by
                  rw [if_neg hbody] at hbh
                  exact Option.map_eq_none.mp hbh
                constructor
                · constructor
                  · rintro ⟨did, h⟩
                    simp [verify_signature, ha, hb, hc, h2, hpt, htol, h4,
                      hkey, h6, hbody, hcanon] at h
                  · rintro ⟨_, _, _, _, _, ⟨k, hk, _, ⟨bh2, hbh2, _⟩⟩⟩
                    exact absurd hbh2 (by simp)
                · intro c d h
                  simp [verify_signature, ha, hb, hc, h2, hpt, htol, h4, hkey,
                    h6, hbody, hcanon] at h
                  exact Or.inr ⟨h.1.symm, hbody, hcanon⟩
              · rcases hsig : hexDecode (x_signature.getD "").data with _ | sb
                · constructor
                  · constructor
                    · rintro ⟨did, h⟩
                      simp [verify_signature, ha, hb, hc, h2, hpt, htol, h4,
                        hkey, h6, ite_not, hbh, hsig] at h
                    · rintro ⟨_, _, _, _, _,
                        ⟨k, hk, _, ⟨bh2, _, ⟨sb2, hsb2, _⟩⟩⟩⟩
                      exact absurd hsb2 (by simp)
                  · intro c d h
                    simp [verify_signature, ha, hb, hc, h2, hpt, htol, h4,
                      hkey, h6, ite_not, hbh, hsig] at h
                    exact Or.inl h.1.symm
                · by_cases h9 : edVerify key
                      (method ++ path ++ (x_timestamp.getD "") ++ bh) sb = true
                  · constructor
                    · constructor
                      · intro _
                        exact ⟨ha, hb, hc, h2, ⟨rt, rfl, by omega⟩,
                          ⟨key, rfl, h6, bh, rfl, sb, rfl, h9⟩⟩
                      · intro _
                        refine ⟨x_agent_id.getD "", ?_⟩
                        simp [verify_signature, ha, hb, hc, h2, hpt, htol, h4,
                          hkey, h6, ite_not, hbh, hsig, h9]
                    · intro c d h
                      simp [verify_signature, ha, hb, hc, h2, hpt, htol, h4,
                        hkey, h6, ite_not, hbh, hsig, h9] at h
                  · constructor
                    · constructor
                      · rintro ⟨did, h⟩
                        simp [verify_signature, ha, hb, hc, h2, hpt, htol, h4,
                          hkey, h6, ite_not, hbh, hsig, h9] at h
                      · rintro ⟨_, _, _, _, ⟨rt2, hrt2, _⟩,
                          ⟨k, hk, _, ⟨bh2, hbh2, ⟨sb2, hsb2, hver⟩⟩⟩⟩
                        obtain rfl : rt = rt2 := by simpa using hrt2
                        obtain rfl : key = k := by simpa using hk
                        obtain rfl : bh = bh2 := by simpa using hbh2
                        obtain rfl : sb = sb2 := by simpa using hsb2
                        exact absurd hver h9
                    · intro c d h
                      simp [verify_signature, ha, hb, hc, h2, hpt, htol, h4,
                        hkey, h6, ite_not, hbh, hsig, h9] at h
                      exact Or.inl h.1.symm
            · constructor
              · constructor
                · rintro ⟨did, h⟩
                  simp [verify_signature, ha, hb, hc, h2, hpt, htol, h4, hkey,
                    h6] at h
                · rintro ⟨_, _, _, _, _, ⟨k, hk, hkl, _⟩⟩
                  obtain rfl : key = k := by simpa using hk
                  exact absurd hkl h6
              · intro c d h
                simp [verify_signature, ha, hb, hc, h2, hpt, htol, h4, hkey,
                  h6] at h
                exact Or.inl h.1.symm
    · constructor
      · constructor
        · rintro ⟨did, h⟩
          simp [verify_signature, ha, hb, hc, h2] at h
        · rintro ⟨_, _, _, hdid, _⟩
          exact absurd hdid h2
      · intro c d h
        simp [verify_signature, ha, hb, hc, h2] at h
        exact Or.inl h.1.symm

open RuleBasedStrategy in
/-- Claim C9: with the rule strategy (selected by `llm.model = "rule"`; a
pure function of its inputs, hence deterministic), for every existing item
the rules apply in priority order: a bid above the trigger price escalates
with template `high_value_confirm`; otherwise a bid below the floor is
countered at the floor with reason `BELOW_FLOOR`; otherwise the bid is
accepted at its own amount — in particular a bid equal to the floor is
accepted at the bid. -/
theorem C9_rule_reasoner (trigger_price : ℚ) (item : InventoryItem)
    (bid : ℚ) (now : ℤ) :
    (bid > trigger_price →
      evaluate trigger_price (some item) bid now =
        ResponsePayload.ui_required "high_value_confirm"
          ("Bid of $" ++ floatStr bid ++ " exceeds security threshold")) ∧
    (bid ≤ trigger_price → bid < item.floor_price →
      evaluate trigger_price (some item) bid now =
        ResponsePayload.countered item.floor_price
          ("We cannot accept less than $" ++ floatStr item.floor_price ++ ".")
          "BELOW_FLOOR") ∧
    (bid ≤ trigger_price → item.floor_price ≤ bid →
      evaluate trigger_price (some item) bid now =
        ResponsePayload.accepted
          { final_price := bid,
            reservation_code := some ("RULE-" ++ ⟨intRepr now⟩) }) ∧
    (bid = item.floor_price → bid ≤ trigger_price →
      evaluate trigger_price (some item) bid now =
        ResponsePayload.accepted
          { final_price := bid,
            reservation_code := some ("RULE-" ++ ⟨intRepr now⟩) }) := by
  refine ⟨?_, ?_, ?_, ?_⟩
  · intro h
    simp [evaluate, h]
  · intro h hf
    simp [evaluate, not_lt.mpr h, hf]
  · intro h hf
    simp [evaluate, not_lt.mpr h, not_lt.mpr hf]
  · intro he h
    simp [evaluate, not_lt.mpr h, not_lt.mpr (le_of_eq he.symm)]

open RuleBasedStrategy in
/-- Claim C9, witness: a bid of 800 equal to the 800 floor (trigger 1000)
is accepted at 800. -/
theorem C9_rule_reasoner_witness :
    ((800 : ℚ) = itemHotel.floor_price ∧ (800 : ℚ) ≤ 1000) ∧
    evaluate 1000 (some itemHotel) 800 0 =
      ResponsePayload.accepted
        { final_price := 800, reservation_code := some ("RULE-" ++ ⟨intRepr 0⟩) } :=
  ⟨⟨by decide, by decide⟩,
   (C9_rule_reasoner 1000 itemHotel 800 0).2.2.2 (by decide) (by decide)⟩

/-- Claim C10: a `check_status` call on a PENDING, unexpired deal for which
the chain reports no proof returns PENDING with the deal's current payment
instructions, and commits nothing: the stored row is returned exactly as it
was (the `true` records that `verify_payment` was consulted). -/
theorem C10_pending_frame (decrypt : String → String) (wa nw : String)
    (now : ℤ) (deal : LockedDeal)
    (hs : deal.status = DealStatus.PENDING)
    (he : ¬ now > deal.expires_at) :
    MarketService.check_status decrypt wa nw none now (some deal) =
      ({ status := "PENDING",
         payment_instructions := some
           { deal_id := deal.id, wallet_address := wa,
             amount := deal.final_price, currency := deal.currency,
             memo := deal.payment_memo, network := nw,
             expires_at := deal.expires_at } },
       some deal, true) := by
  simp [MarketService.check_status, MarketService._build_pending_response,
    hs, he]

/-- Claim C10, witness: the pending deal checked at time 10 (before its
expiry at 50) with no on-chain proof is returned unchanged with its
instructions. -/
theorem C10_pending_frame_witness :
    (dealPending.status = DealStatus.PENDING ∧
      ¬ (10 : ℤ) > dealPending.expires_at) ∧
    MarketService.check_status (fun s => s) "WALLET" "solana-devnet" none 10
        (some dealPending) =
      ({ status := "PENDING",
         payment_instructions := some
           { deal_id := dealPending.id, wallet_address := "WALLET",
             amount := dealPending.final_price,
             currency := dealPending.currency,
             memo := dealPending.payment_memo, network := "solana-devnet",
             expires_at := dealPending.expires_at } },
       some dealPending, true) :=
  ⟨⟨rfl, by decide⟩,
   C10_pending_frame (fun s => s) "WALLET" "solana-devnet" 10 dealPending
     rfl (by decide)⟩

end Aura
